import Mathlib

/-!
Shallow embedding of the Real-Time-Chat-App server and client logic.

The server (`ChatServer.ts`, the variant with the `Message` manager and
`CHAT_ROOMS`) persists messages to a `messages` table, mirrors presence
events into a `users` table, and republishes state on Ably channels.
Storage is modelled as pure lists of rows; timestamps (`new Date()`)
and generated row ids are passed as explicit parameters; collaborator
failures are modelled by explicit boolean/Option parameters at the
points where the source checks for them.
-/

namespace Chat

/-- A JavaScript runtime value, as needed to model property access on a
raw database row (`data as UserData` followed by `user?.isOnline`). -/
inductive JsValue where
  | jundefined
  | jnull
  | jbool (b : Bool)
  | jstr (s : String)
  | jnum (n : Nat)
deriving DecidableEq, Repr

/-- JavaScript truthiness of a value, as used by `||` and `if`. -/
def jsTruthy : JsValue → Bool
  | .jundefined => false
  | .jnull => false
  | .jbool b => b
  | .jstr s => s != ""
  | .jnum n => n != 0

/-- Property access `obj.key` on a plain JS object (an association list of
string keys); a missing key yields `undefined`. -/
def getField (o : List (String × JsValue)) (k : String) : JsValue :=
  match o.find? (fun p => p.1 == k) with
  | some p => p.2
  | none => .jundefined

/-- Truthiness of an optional request-body string field: JS `!x` is true
for `undefined` and for the empty string. -/
def optTruthy : Option String → Bool
  | none => false
  | some s => s != ""

/-- A row of the `users` table, per the SQL schema: note the lowercase
column names `isonline` and `lastseen`. -/
structure UserRow where
  id : String
  username : String
  email : String
  isonline : Bool
  lastseen : Option Nat
  created_at : Nat
  updated_at : Nat
deriving DecidableEq, Repr

/-- The JS object a `users` row materializes as when fetched: its keys are
exactly the (lowercase) column names of the schema. -/
def userRowObj (u : UserRow) : List (String × JsValue) :=
  [ ("id", .jstr u.id)
  , ("username", .jstr u.username)
  , ("email", .jstr u.email)
  , ("isonline", .jbool u.isonline)
  , ("lastseen", match u.lastseen with | none => .jnull | some t => .jnum t)
  , ("created_at", .jnum u.created_at)
  , ("updated_at", .jnum u.updated_at) ]

/-- A row of the `messages` table. -/
structure MessageRow where
  id : String
  content : String
  sender_id : String
  recipient_id : Option String
  chat_id : String
  created_at : Nat
  updated_at : Nat
deriving DecidableEq, Repr

/-- The whole relational storage: the `users` and `messages` tables. -/
structure Storage where
  users : List UserRow
  messages : List MessageRow
deriving DecidableEq, Repr

/-- `User.getUserById`: `select * from users where id = userId single()`;
`single()` errors (and the method returns null) when no row matches. -/
def getUserById (users : List UserRow) (userId : String) : Option UserRow :=
  users.find? (fun u => u.id == userId)

/-- `User.updateOnlineStatus` (the lowercase-column variant the server
uses): sets `isonline` to the given flag and `lastseen` to null when
going online, to the current time when going offline, on every row whose
id matches. -/
def updateOnlineStatus (users : List UserRow) (userId : String)
    (isOnline : Bool) (now : Nat) : List UserRow :=
  users.map (fun u =>
    if u.id == userId then
      { u with isonline := isOnline
             , lastseen := if isOnline then none else some now }
    else u)

/-- `User.createUser`: inserts a row with `isonline: true` and
`lastseen: new Date().toISOString()`; returns the inserted row. -/
def createUser (users : List UserRow) (userId email username : String)
    (now : Nat) : List UserRow × UserRow :=
  let row : UserRow :=
    { id := userId, username := username, email := email
    , isonline := true, lastseen := some now
    , created_at := now, updated_at := now }
  (users ++ [row], row)

/-- `User.isUserOnline`: fetches the row and returns
`user?.isOnline || false` — note the camelCase property access on a row
whose actual key is the lowercase `isonline`. -/
def isUserOnline (users : List UserRow) (userId : String) : Bool :=
  match getUserById users userId with
  | none => false
  | some u => jsTruthy (getField (userRowObj u) "isOnline")

/-- `GET /api/users/:userId/status`: responds `{ isOnline }` with HTTP 200
on the non-exception path. -/
def userStatusRoute (users : List UserRow) (userId : String) : Nat × Bool :=
  (200, isUserOnline users userId)

/-- Sender info attached to a message before returning or publishing it. -/
structure SenderInfo where
  id : String
  username : String
deriving DecidableEq, Repr

/-- A message row enriched with its sender's info, as returned by
`Message.getMessagesForChat` and published by `Message.publishMessage`. -/
structure MessageWithSender where
  row : MessageRow
  sender : Option SenderInfo
deriving DecidableEq, Repr

/-- The row `Message.saveMessage` inserts: `recipient_id` is
`recipientId || null` (so an absent or empty recipient becomes null) and
both timestamps are the current time. The row id is generated by the
database and passed here explicitly. -/
def mkMessageRow (senderId content chatId : String)
    (recipientId : Option String) (newId : String) (now : Nat) : MessageRow :=
  { id := newId
  , content := content
  , sender_id := senderId
  , recipient_id := if optTruthy recipientId then recipientId else none
  , chat_id := chatId
  , created_at := now
  , updated_at := now }

/-- `Message.saveMessage`: inserts the new row and returns it. -/
def saveMessage (msgs : List MessageRow) (senderId content chatId : String)
    (recipientId : Option String) (newId : String) (now : Nat) :
    List MessageRow × MessageRow :=
  let row := mkMessageRow senderId content chatId recipientId newId now
  (msgs ++ [row], row)

/-- Insert a message into a list kept in descending `created_at` order
(the database's `order by created_at desc`). -/
def insertDesc (m : MessageRow) : List MessageRow → List MessageRow
  | [] => [m]
  | h :: t => if h.created_at < m.created_at then m :: h :: t
              else h :: insertDesc m t

/-- Sort messages by `created_at`, newest first, modelling the query's
`order('created_at', { ascending: false })`. -/
def sortDesc (l : List MessageRow) : List MessageRow :=
  l.foldr insertDesc []

/-- `Message.getMessagesForChat`: filters the `messages` table on
`chat_id`, orders newest first, takes `limit` rows, and attaches sender
info looked up in the `users` table (`username || 'Unknown User'` when
the stored username is empty; no sender field when the user row is
missing). -/
def getMessagesForChat (users : List UserRow) (msgs : List MessageRow)
    (chatId : String) (lim : Nat) : List MessageWithSender :=
  let filtered := msgs.filter (fun m => m.chat_id == chatId)
  let page := (sortDesc filtered).take lim
  page.map (fun m =>
    { row := m
    , sender :=
        match users.find? (fun u => u.id == m.sender_id) with
        | some u =>
            some { id := m.sender_id
                 , username := if u.username == "" then "Unknown User"
                               else u.username }
        | none => none })

/-- An Ably publish of a message payload on a named channel. -/
structure PublishEvent where
  channel : String
  payload : MessageWithSender
deriving DecidableEq, Repr

/-- `Message.publishMessage`: publishes the message (enriched with the
sender's username) on `chat:<chat_id>`, then, when `recipient_id` is
truthy, also on `direct:<recipient_id>`. Every publish is awaited inside
one try/catch: a throwing room publish (`chatOk = false`) delivers
nothing and skips the direct publish, a throwing direct publish
(`dirOk = false`) loses only that event; no error escapes. The returned
list is the events actually delivered. -/
def publishMessage (m : MessageRow) (senderUsername : String)
    (chatOk dirOk : Bool) : List PublishEvent :=
  let payload : MessageWithSender :=
    { row := m, sender := some { id := m.sender_id, username := senderUsername } }
  if chatOk then
    { channel := "chat:" ++ m.chat_id, payload := payload } ::
      (if optTruthy m.recipient_id then
        (if dirOk then
          [{ channel := "direct:" ++ m.recipient_id.getD "", payload := payload }]
        else [])
      else [])
  else []

/-- Outcome of `POST /api/chat-rooms/:chatId/messages`. -/
inductive PostResp where
  | badRequest
  | notFound
  | serverError
  | created (m : MessageRow)
deriving DecidableEq, Repr

/-- The HTTP status the route answers with for each outcome. -/
def PostResp.status : PostResp → Nat
  | .badRequest => 400
  | .notFound => 404
  | .serverError => 500
  | .created _ => 201

/-- Result of the send-message route: the response, the storage after the
request, and the Ably events delivered by the fan-out. -/
structure PostOutcome where
  resp : PostResp
  st : Storage
  events : List PublishEvent
deriving DecidableEq, Repr

/-- `POST /api/chat-rooms/:chatId/messages`: rejects with 400 when
`content` or `senderId` is falsy (absent or empty), with 404 when
`getUserById` finds no sender, with 500 when the insert fails
(`dbOk = false`); otherwise persists via `saveMessage`, fans out via
`publishMessage`, and answers 201 with the persisted row. -/
def postMessageRoute (st : Storage) (chatId : String)
    (content senderId recipientId : Option String) (newId : String)
    (now : Nat) (dbOk chatOk dirOk : Bool) : PostOutcome :=
  match content, senderId with
  | some c, some s =>
      if c == "" || s == "" then { resp := .badRequest, st := st, events := [] }
      else
        match getUserById st.users s with
        | none => { resp := .notFound, st := st, events := [] }
        | some sender =>
            if dbOk then
              let r := saveMessage st.messages s c chatId recipientId newId now
              { resp := .created r.2
              , st := { st with messages := r.1 }
              , events := publishMessage r.2 sender.username chatOk dirOk }
            else { resp := .serverError, st := st, events := [] }
  | _, _ => { resp := .badRequest, st := st, events := [] }

/-- `GET /api/chat-rooms/:chatId/messages`: the handler reads only the
`limit` query parameter (defaulting to 50); the `before` parameter the
client may send is never read. -/
def getMessagesRoute (st : Storage) (chatId : String)
    (beforeParam : Option Nat) (limitParam : Option Nat) :
    List MessageWithSender :=
  getMessagesForChat st.users st.messages chatId (limitParam.getD 50)

/-- A roster entry as selected by `publishUserList`
(`select('id, username, isonline, lastseen')`). -/
structure RosterEntry where
  id : String
  username : String
  isonline : Bool
  lastseen : Option Nat
deriving DecidableEq, Repr

/-- The projection of the `users` table that a roster read returns. -/
def rosterOf (users : List UserRow) : List RosterEntry :=
  users.map (fun u =>
    { id := u.id, username := u.username
    , isonline := u.isonline, lastseen := u.lastseen })

/-- `ChatServer.publishUserList`: reads the `users` table (`none` models
a read error); returns without publishing on a read error or when no
rows come back; otherwise publishes one `update` event carrying the full
list on the `users` channel. All failures are caught inside, so the
function always returns normally. -/
def publishUserList (readResult : Option (List RosterEntry)) :
    List (List RosterEntry) :=
  match readResult with
  | none => []
  | some l => if l.isEmpty then [] else [l]

/-- The `request_users` subscription handler: it only calls
`publishUserList`. -/
def requestUsersHandler (readResult : Option (List RosterEntry)) :
    List (List RosterEntry) :=
  publishUserList readResult

/-- The presence-channel `enter` handler: marks the user online via
`updateOnlineStatus`, then rereads the table and broadcasts the roster
(success path of the read). -/
def presenceEnter (st : Storage) (userId : String) (now : Nat) :
    Storage × List (List RosterEntry) :=
  let users1 := updateOnlineStatus st.users userId true now
  ({ st with users := users1 }, publishUserList (some (rosterOf users1)))

/-- The presence-channel `leave` handler: marks the user offline (with a
last-seen stamp) via `updateOnlineStatus`, then rereads the table and
broadcasts the roster (success path of the read). -/
def presenceLeave (st : Storage) (userId : String) (now : Nat) :
    Storage × List (List RosterEntry) :=
  let users1 := updateOnlineStatus st.users userId false now
  ({ st with users := users1 }, publishUserList (some (rosterOf users1)))

/-- A message as the client's `MessageList` component holds it. -/
structure ClientMessage where
  id : Option String
  content : String
  senderId : String
  timestamp : Nat
deriving DecidableEq, Repr

/-- The client's `handleMessage` subscription callback in
`MessageList.tsx`: `setMessages(prev => [...prev, newMessage])` — the
incoming event is appended to local history unconditionally. -/
def handleMessage (history : List ClientMessage) (m : ClientMessage) :
    List ClientMessage :=
  history ++ [m]

/-- One send request of a round-trip scenario: the body fields of a
successful `POST .../messages` together with the database-generated id
and insertion timestamp. -/
structure SendReq where
  newId : String
  content : String
  senderId : String
  recipientId : Option String
  ts : Nat
deriving DecidableEq, Repr

/-- Persist a sequence of sends to one room through `saveMessage`;
returns the final `messages` table and the list of persisted rows in
send order. -/
def sendAll (msgs : List MessageRow) (chatId : String) :
    List SendReq → List MessageRow × List MessageRow
  | [] => (msgs, [])
  | r :: rest =>
      let p1 := saveMessage msgs r.senderId r.content chatId r.recipientId
                  r.newId r.ts
      let p := sendAll p1.1 chatId rest
      (p.1, p1.2 :: p.2)

/-- The rows a sequence of sends persists, in send order. -/
def rowsOf (chatId : String) (reqs : List SendReq) : List MessageRow :=
  reqs.map (fun r =>
    mkMessageRow r.senderId r.content chatId r.recipientId r.newId r.ts)

/-- Example user row used to instantiate theorems with hypotheses. -/
def exAlice : UserRow :=
  { id := "u1", username := "alice", email := "a@b"
  , isonline := true, lastseen := none, created_at := 0, updated_at := 0 }

/-- Example message row: a room message created at time 10. -/
def exMsg10 : MessageRow :=
  { id := "m1", content := "hi", sender_id := "u1", recipient_id := none
  , chat_id := "general", created_at := 10, updated_at := 10 }

/-- Example storage: one user, one message in room `general`. -/
def exSt : Storage := { users := [exAlice], messages := [exMsg10] }

/-- Example live client message event. -/
def exClientMsg : ClientMessage :=
  { id := some "m1", content := "hi", senderId := "u1", timestamp := 3 }

end Chat

namespace Chat

theorem sendAll_spec (chatId : String) (reqs : List SendReq) :
    ∀ msgs : List MessageRow,
      sendAll msgs chatId reqs = (msgs ++ rowsOf chatId reqs, rowsOf chatId reqs) := by
  induction reqs with
  | nil => intro msgs; simp [sendAll, rowsOf]
  | cons r rest ih =>
      intro msgs
      simp [sendAll, rowsOf, saveMessage, ih (msgs ++ [mkMessageRow r.senderId r.content chatId r.recipientId r.newId r.ts])]

theorem insertDesc_of_forall_not_lt (m : MessageRow) (l : List MessageRow)
    (h : ∀ x ∈ l, ¬ x.created_at < m.created_at) :
    insertDesc m l = l ++ [m] := by
  induction l with
  | nil => rfl
  | cons a t ih =>
      have ha : ¬ a.created_at < m.created_at := h a (by simp)
      simp [insertDesc, ha]
      exact ih (fun x hx => h x (by simp [hx]))

theorem sortDesc_of_ascending (l : List MessageRow)
    (h : List.Pairwise (fun a b => a.created_at < b.created_at) l) :
    sortDesc l = l.reverse := by
  induction l with
  | nil => rfl
  | cons a t ih =>
      rcases List.pairwise_cons.mp h with ⟨ha, ht⟩
      show insertDesc a (sortDesc t) = (a :: t).reverse
      rw [ih ht, List.reverse_cons]
      exact insertDesc_of_forall_not_lt a t.reverse
        (fun x hx => Nat.lt_asymm (ha x (List.mem_reverse.mp hx)))

theorem getMessages_map_row (users : List UserRow) (msgs : List MessageRow)
    (chatId : String) (lim : Nat) :
    (getMessagesForChat users msgs chatId lim).map MessageWithSender.row
      = (sortDesc (msgs.filter (fun m => m.chat_id == chatId))).take lim := by
  unfold getMessagesForChat
  rw [List.map_map]
  exact List.map_id _

theorem updateOnlineStatus_row (users : List UserRow) (userId : String)
    (b : Bool) (now : Nat) :
    ∀ u' ∈ updateOnlineStatus users userId b now, u'.id = userId →
      u'.isonline = b ∧ u'.lastseen = (if b then none else some now) := by
  intro u' hmem hid
  rcases List.mem_map.mp hmem with ⟨u, _, rfl⟩
  by_cases h : u.id == userId
  · simp [h]
  · simp [h] at hid ⊢
    exact absurd hid (by simpa using h)

/-- Claim C9: `isUserOnline` reads the camelCase `isOnline` property of a
schema-shaped row (whose key is the lowercase `isonline`), so it returns
`false` for every user, online or not, and for unknown ids; the status
route therefore always answers 200 with `isOnline = false`. -/
theorem isUserOnline_always_false (users : List UserRow) (userId : String) :
    isUserOnline users userId = false ∧
    userStatusRoute users userId = (200, false) := by
  have h : isUserOnline users userId = false := by
    unfold isUserOnline
    cases hu : getUserById users userId with
    | none => rfl
    | some u => rfl
  exact ⟨h, by simp [userStatusRoute, h]⟩

/-- Claim C2: `publishMessage` publishes the payload (the row enriched
with the sender's username) on the room channel `chat:<chat_id>`, and on
`direct:<recipient_id>` exactly when a recipient id is present; a
message without one reaches no channel besides the room channel. Stated
on the delivery-success path for messages whose recipient field is never
the empty string (as produced by `saveMessage`). -/
theorem publishMessage_fanout (m : MessageRow) (senderUsername : String)
    (h : m.recipient_id ≠ some "") :
    (publishMessage m senderUsername true true).map PublishEvent.channel
      = (match m.recipient_id with
         | some r => ["chat:" ++ m.chat_id, "direct:" ++ r]
         | none => ["chat:" ++ m.chat_id]) ∧
    ∀ e ∈ publishMessage m senderUsername true true,
      e.payload = { row := m
                  , sender := some { id := m.sender_id, username := senderUsername } } := by
  cases hr : m.recipient_id with
  | none => simp [publishMessage, optTruthy, hr]
  | some r =>
      have hne : r ≠ "" := fun hre => h (by rw [hr, hre])
      constructor
      · simp [publishMessage, optTruthy, hr, hne]
      · intro e he
        simp [publishMessage, optTruthy, hr, hne] at he
        rcases he with he | he <;> simp [he]

/-- Witness for C2 at a concrete direct message. -/
theorem publishMessage_fanout_witness :
    ({ id := "m2", content := "yo", sender_id := "u1"
     , recipient_id := some "u2", chat_id := "general"
     , created_at := 4, updated_at := 4 } : MessageRow).recipient_id ≠ some "" ∧
    (publishMessage
        { id := "m2", content := "yo", sender_id := "u1"
        , recipient_id := some "u2", chat_id := "general"
        , created_at := 4, updated_at := 4 } "alice" true true).map PublishEvent.channel
      = ["chat:general", "direct:u2"] := by
  refine ⟨by decide, ?_⟩
  have h := publishMessage_fanout
    { id := "m2", content := "yo", sender_id := "u1"
    , recipient_id := some "u2", chat_id := "general"
    , created_at := 4, updated_at := 4 } "alice" (by decide)
  simpa using h.1

/-- Claim C3 counterexample: `createUser` writes (and returns) a row that
is simultaneously online and carries a non-null last-seen timestamp, so
not every server write respects the claimed exclusivity invariant. -/
theorem createUser_breaks_exclusivity :
    (createUser [] "u1" "a@b" "alice" 7).2.isonline = true ∧
    (createUser [] "u1" "a@b" "alice" 7).2.lastseen = some 7 ∧
    (createUser [] "u1" "a@b" "alice" 7).1
      = [(createUser [] "u1" "a@b" "alice" 7).2] := by
  refine ⟨rfl, rfl, rfl⟩

/-- Claim C3 amended: rows written by `updateOnlineStatus` (explicit
status calls and presence enter/leave) respect the exclusivity invariant
— going online clears last-seen, going offline stamps it — but
`createUser` on registration writes a row that is both online and has a
non-null last-seen equal to the creation time. -/
theorem exclusivity_amended (users : List UserRow) (userId : String)
    (b : Bool) (now : Nat) :
    (∀ u' ∈ updateOnlineStatus users userId b now, u'.id = userId →
        u'.isonline = b ∧ u'.lastseen = (if b then none else some now)) ∧
    (∀ (users0 : List UserRow) (uid em un : String) (n : Nat),
        (createUser users0 uid em un n).2.isonline = true ∧
        (createUser users0 uid em un n).2.lastseen = some n) := by
  constructor
  · exact updateOnlineStatus_row users userId b now
  · intro users0 uid em un n
    exact ⟨rfl, rfl⟩

/-- Witness for the amended C3 at a concrete user going offline. -/
theorem exclusivity_amended_witness :
    (∀ u' ∈ updateOnlineStatus [exAlice] "u1" false 9, u'.id = "u1" →
        u'.isonline = false ∧ u'.lastseen = (if false then none else some 9)) ∧
    (createUser [] "u2" "b@c" "bob" 11).2.isonline = true := by
  refine ⟨(exclusivity_amended [exAlice] "u1" false 9).1, ?_⟩
  exact ((exclusivity_amended [exAlice] "u1" false 9).2 [] "u2" "b@c" "bob" 11).1

/-- Claim C4 counterexample: with one stored message of room `general`
created at time 10, a request with `before = 3` (no stored message is
older than 3) still returns that message — the claim demands the empty
list, and demands only messages created strictly before 3. -/
theorem before_filter_cex :
    (getMessagesRoute exSt "general" (some 3) none).map
        (fun mw => mw.row.created_at) = [10] ∧
    ¬ (10 < 3) := by
  refine ⟨?_, by decide⟩
  rfl

/-- Claim C4 amended: the handler never reads the `before` query
parameter — the response is identical for any `before` value and
consists of the newest up-to-`limit` messages of the room; it is the
empty list when the room has no stored messages at all, but stored
messages not older than `before` are still returned. -/
theorem before_ignored (st : Storage) (chatId : String)
    (b1 b2 lim : Option Nat) :
    getMessagesRoute st chatId b1 lim = getMessagesRoute st chatId b2 lim ∧
    (st.messages.filter (fun m => m.chat_id == chatId) = [] →
      getMessagesRoute st chatId b1 lim = []) := by
  refine ⟨rfl, ?_⟩
  intro h
  simp [getMessagesRoute, getMessagesForChat, h, sortDesc]

/-- Witness for the amended C4: a room with no stored messages yields the
empty list whatever `before` says. -/
theorem before_ignored_witness :
    ([exMsg10].filter (fun m => m.chat_id == "lounge") = []) ∧
    getMessagesRoute exSt "lounge" (some 3) none = [] := by
  have h : exSt.messages.filter (fun m => m.chat_id == "lounge") = [] := by decide
  exact ⟨h, (before_ignored exSt "lounge" (some 3) (some 99) none).2 h⟩

/-- Claim C8 counterexample: delivering the same live message event twice
does not leave the history unchanged — `handleMessage` appends a second
copy even though the event's id is already present after the first
delivery. -/
theorem duplicate_event_cex :
    handleMessage (handleMessage [] exClientMsg) exClientMsg
      ≠ handleMessage [] exClientMsg ∧
    exClientMsg.id ∈ (handleMessage [] exClientMsg).map ClientMessage.id := by
  refine ⟨by decide, by decide⟩

/-- Claim C8 amended: the client's `handleMessage` performs no duplicate
check at all — every incoming live message event is appended to local
history unconditionally, so processing the same event twice yields a
history with two copies, different from processing it once. -/
theorem handleMessage_appends_always (hist : List ClientMessage)
    (m : ClientMessage) :
    handleMessage hist m = hist ++ [m] ∧
    handleMessage (handleMessage hist m) m = hist ++ [m, m] ∧
    handleMessage (handleMessage hist m) m ≠ handleMessage hist m := by
  refine ⟨rfl, by simp [handleMessage], ?_⟩
  intro hEq
  have hlen := congrArg List.length hEq
  simp [handleMessage] at hlen

/-- Witness for the amended C8 at a concrete event. -/
theorem handleMessage_appends_always_witness :
    handleMessage (handleMessage [] exClientMsg) exClientMsg
      = [] ++ [exClientMsg, exClientMsg] := by
  exact (handleMessage_appends_always [] exClientMsg).2.1

/-- Claim C10: the `request_users` handler (which just calls
`publishUserList`) broadcasts a roster update if and only if the storage
read succeeds and returns at least one row; a read error or an empty
table produces no broadcast, and the total return type reflects that no
failure escapes to the caller. -/
theorem requestUsers_broadcast_iff (r : Option (List RosterEntry)) :
    (requestUsersHandler r ≠ [] ↔ ∃ l, r = some l ∧ l ≠ []) ∧
    requestUsersHandler none = [] ∧
    requestUsersHandler (some []) = [] ∧
    (∀ l : List RosterEntry, l ≠ [] → requestUsersHandler (some l) = [l]) := by
  refine ⟨?_, rfl, rfl, ?_⟩
  · cases r with
    | none => simp [requestUsersHandler, publishUserList]
    | some l =>
        cases l with
        | nil => simp [requestUsersHandler, publishUserList]
        | cons a t => simp [requestUsersHandler, publishUserList]
  · intro l hl
    simp [requestUsersHandler, publishUserList, hl]

/-- Witness for C10 at a nonempty roster read. -/
theorem requestUsers_broadcast_iff_witness :
    requestUsersHandler (some (rosterOf [exAlice]))
      = [rosterOf [exAlice]] := by
  exact (requestUsers_broadcast_iff (some (rosterOf [exAlice]))).2.2.2
    (rosterOf [exAlice]) (by decide)

/-- Claim C1: the send-message route rejects with 400 (and persists
nothing) when content or sender id is absent, rejects with 404 (and
persists nothing) when the sender id resolves to no stored user, and
otherwise — on the insert-success path — appends exactly one new row
whose sender, room, recipient and creation-time fields come from the
request, answering 201 with that row. -/
theorem postMessage_contract (st : Storage) (chatId : String)
    (content senderId recipientId : Option String) (newId : String)
    (now : Nat) (chatOk dirOk : Bool) :
    (content = none ∨ senderId = none →
      postMessageRoute st chatId content senderId recipientId newId now true chatOk dirOk
        = { resp := .badRequest, st := st, events := [] } ∧
      PostResp.badRequest.status = 400) ∧
    (∀ c s : String, content = some c → senderId = some s → c ≠ "" → s ≠ "" →
      getUserById st.users s = none →
      postMessageRoute st chatId content senderId recipientId newId now true chatOk dirOk
        = { resp := .notFound, st := st, events := [] } ∧
      PostResp.notFound.status = 404) ∧
    (∀ (c s : String) (sender : UserRow),
      content = some c → senderId = some s → c ≠ "" → s ≠ "" →
      getUserById st.users s = some sender →
      (postMessageRoute st chatId content senderId recipientId newId now true chatOk dirOk).resp
        = .created (mkMessageRow s c chatId recipientId newId now) ∧
      (postMessageRoute st chatId content senderId recipientId newId now true chatOk dirOk).st.messages
        = st.messages ++ [mkMessageRow s c chatId recipientId newId now] ∧
      (postMessageRoute st chatId content senderId recipientId newId now true chatOk dirOk).st.users
        = st.users ∧
      (mkMessageRow s c chatId recipientId newId now).sender_id = s ∧
      (mkMessageRow s c chatId recipientId newId now).chat_id = chatId ∧
      (mkMessageRow s c chatId recipientId newId now).created_at = now ∧
      (recipientId ≠ some "" →
        (mkMessageRow s c chatId recipientId newId now).recipient_id = recipientId) ∧
      (PostResp.created (mkMessageRow s c chatId recipientId newId now)).status = 201) := by
  refine ⟨?_, ?_, ?_⟩
  · rintro (rfl | rfl)
    · cases senderId <;> exact ⟨rfl, rfl⟩
    · cases content <;> exact ⟨rfl, rfl⟩
  · rintro c s rfl rfl hc hs hfind
    have hcs : (c == "" || s == "") = false := by simp [hc, hs]
    exact ⟨by simp [postMessageRoute, hcs, hfind], rfl⟩
  · rintro c s sender rfl rfl hc hs hfind
    have hcs : (c == "" || s == "") = false := by simp [hc, hs]
    refine ⟨?_, ?_, ?_, rfl, rfl, rfl, ?_, rfl⟩
    · simp [postMessageRoute, hcs, hfind, saveMessage]
    · simp [postMessageRoute, hcs, hfind, saveMessage]
    · simp [postMessageRoute, hcs, hfind, saveMessage]
    · intro hr
      cases hrc : recipientId with
      | none => simp [mkMessageRow, optTruthy]
      | some r =>
          have : r ≠ "" := fun hre => hr (by rw [hrc, hre])
          simp [mkMessageRow, optTruthy, this]

/-- Witness for C1 at a concrete valid send. -/
theorem postMessage_contract_witness :
    getUserById exSt.users "u1" = some exAlice ∧
    (postMessageRoute exSt "general" (some "hi") (some "u1") none "m9" 20 true true true).resp
      = .created (mkMessageRow "u1" "hi" "general" none "m9" 20) := by
  refine ⟨by decide, ?_⟩
  exact ((postMessage_contract exSt "general" (some "hi") (some "u1") none "m9" 20
    true true).2.2 "hi" "u1" exAlice rfl rfl (by decide) (by decide) (by decide)).1

/-- Claim C5: on a presence `enter` event for an existing user the server
stores the row as online with last-seen cleared and then broadcasts the
full recomputed roster on the users channel; on `leave` it stores the
row as offline with a non-null last-seen stamp and again broadcasts the
full recomputed roster (success path of the storage calls). -/
theorem presence_mirroring (st : Storage) (userId : String) (now : Nat)
    (h : ∃ u ∈ st.users, u.id = userId) :
    (∀ u' ∈ (presenceEnter st userId now).1.users, u'.id = userId →
        u'.isonline = true ∧ u'.lastseen = none) ∧
    (presenceEnter st userId now).2
      = [rosterOf (presenceEnter st userId now).1.users] ∧
    (∀ u' ∈ (presenceLeave st userId now).1.users, u'.id = userId →
        u'.isonline = false ∧ u'.lastseen = some now) ∧
    (presenceLeave st userId now).2
      = [rosterOf (presenceLeave st userId now).1.users] := by
  have hne : st.users ≠ [] := by
    rcases h with ⟨u, hu, _⟩
    exact List.ne_nil_of_mem hu
  have hpub : ∀ b : Bool,
      publishUserList (some (rosterOf (updateOnlineStatus st.users userId b now)))
        = [rosterOf (updateOnlineStatus st.users userId b now)] := by
    intro b
    have h2 : rosterOf (updateOnlineStatus st.users userId b now) ≠ [] := by
      simp [rosterOf, updateOnlineStatus, hne]
    cases hcase : rosterOf (updateOnlineStatus st.users userId b now) with
    | nil => exact absurd hcase h2
    | cons a t => simp [publishUserList, hcase]
  refine ⟨?_, ?_, ?_, ?_⟩
  · intro u' hmem hid
    exact updateOnlineStatus_row st.users userId true now u' hmem hid
  · exact hpub true
  · intro u' hmem hid
    simpa using updateOnlineStatus_row st.users userId false now u' hmem hid
  · exact hpub false

/-- Witness for C5 at a concrete storage holding the user. -/
theorem presence_mirroring_witness :
    (∃ u ∈ exSt.users, u.id = "u1") ∧
    (presenceEnter exSt "u1" 5).2
      = [rosterOf (presenceEnter exSt "u1" 5).1.users] := by
  refine ⟨by decide, ?_⟩
  exact (presence_mirroring exSt "u1" 5 (by decide)).2.1

/-- Claim C6: once persistence succeeded, the outcome of the channel
fan-out has no influence on the caller or on storage — for every publish
outcome (including both publishes failing) the route still answers 201
with the persisted row and the stored messages are exactly the old table
plus that row. -/
theorem publish_failure_isolated (st : Storage) (chatId c s : String)
    (recipientId : Option String) (newId : String) (now : Nat)
    (sender : UserRow) (hc : c ≠ "") (hs : s ≠ "")
    (hfind : getUserById st.users s = some sender) :
    ∀ chatOk dirOk : Bool,
      (postMessageRoute st chatId (some c) (some s) recipientId newId now true chatOk dirOk).resp
        = .created (mkMessageRow s c chatId recipientId newId now) ∧
      (postMessageRoute st chatId (some c) (some s) recipientId newId now true chatOk dirOk).resp.status
        = 201 ∧
      (postMessageRoute st chatId (some c) (some s) recipientId newId now true chatOk dirOk).st.messages
        = st.messages ++ [mkMessageRow s c chatId recipientId newId now] ∧
      (postMessageRoute st chatId (some c) (some s) recipientId newId now true chatOk dirOk).st.users
        = st.users := by
  intro chatOk dirOk
  have hcs : (c == "" || s == "") = false := by simp [hc, hs]
  refine ⟨?_, ?_, ?_, ?_⟩ <;>
    simp [postMessageRoute, hcs, hfind, saveMessage, PostResp.status]

/-- Witness for C6: both publishes fail, yet the response and storage are
those of a successful send. -/
theorem publish_failure_isolated_witness :
    (postMessageRoute exSt "general" (some "hi") (some "u1") none "m9" 20 true false false).resp
      = .created (mkMessageRow "u1" "hi" "general" none "m9" 20) ∧
    (postMessageRoute exSt "general" (some "hi") (some "u1") none "m9" 20 true false false).st.messages
      = exSt.messages ++ [mkMessageRow "u1" "hi" "general" none "m9" 20] := by
  have h := publish_failure_isolated exSt "general" "hi" "u1" none "m9" 20 exAlice
    (by decide) (by decide) (by decide) false false
  exact ⟨h.1, h.2.2.1⟩

/-- Claim C7: starting from a room with no stored messages, persisting a
sequence of sends with strictly increasing timestamps (at most `limit`
many) and then fetching the room returns exactly those rows,
most-recent-first — i.e. the send order reversed. -/
theorem messages_round_trip (users : List UserRow) (msgs : List MessageRow)
    (chatId : String) (reqs : List SendReq) (lim : Nat)
    (hempty : msgs.filter (fun m => m.chat_id == chatId) = [])
    (hlen : reqs.length ≤ lim)
    (hmono : List.Pairwise (fun a b => a.ts < b.ts) reqs) :
    (getMessagesForChat users (sendAll msgs chatId reqs).1 chatId lim).map
        MessageWithSender.row
      = (sendAll msgs chatId reqs).2.reverse := by
  rw [sendAll_spec chatId reqs msgs]
  rw [getMessages_map_row]
  have hfilter : (msgs ++ rowsOf chatId reqs).filter (fun m => m.chat_id == chatId)
      = rowsOf chatId reqs := by
    rw [List.filter_append, hempty, List.nil_append]
    apply List.filter_eq_self.mpr
    intro a ha
    rcases List.mem_map.mp ha with ⟨r, _, rfl⟩
    simp [mkMessageRow]
  have hpair : List.Pairwise (fun a b : MessageRow => a.created_at < b.created_at)
      (rowsOf chatId reqs) := by
    unfold rowsOf
    rw [List.pairwise_map]
    exact hmono
  rw [hfilter, sortDesc_of_ascending _ hpair]
  apply List.take_of_length_le
  simpa [rowsOf] using hlen

/-- Two example sends with increasing timestamps. -/
def exReqs : List SendReq :=
  [ { newId := "m1", content := "a", senderId := "u1", recipientId := none, ts := 1 }
  , { newId := "m2", content := "b", senderId := "u1", recipientId := none, ts := 2 } ]

/-- Witness for C7 at two concrete sends into an empty room. -/
theorem messages_round_trip_witness :
    (([] : List MessageRow).filter (fun m => m.chat_id == "general") = []) ∧
    exReqs.length ≤ 50 ∧
    List.Pairwise (fun a b => a.ts < b.ts) exReqs ∧
    (getMessagesForChat [exAlice] (sendAll [] "general" exReqs).1 "general" 50).map
        MessageWithSender.row
      = (sendAll [] "general" exReqs).2.reverse := by
  refine ⟨by decide, by decide, by decide, ?_⟩
  exact messages_round_trip [exAlice] [] "general" exReqs 50
    (by decide) (by decide) (by decide)

end Chat
